import Mathlib

/-!
Verification of the gravity-corrections library (prosp_gravi_magne).

The source functions operate elementwise on numeric arrays; they are embedded
here over lists of rationals (and over the reals where trigonometry is
involved).  Index accesses that would raise an IndexError in the source, and
divisions whose denominator is zero (an undefined result in the source), are
modelled with Option: none means the call fails and returns no sequence.
-/

namespace GravityCorrections

/-- Indices at which the station label equals the base label station[0], in
ascending order; this embeds np.where(station == station[0])[0]. -/
def baseIdxs (station : List String) : List Nat :=
  (List.range station.length).filter (fun k => station[k]? == station[0]?)

/-- Loop state of drift_correction: the segment bound readings, the cursor j,
the cumulative offset base_dc, and the list of drift values computed so far.
The fields initial_time and final_time mirror the local variables of those
names that the source assigns inside the advance branch; the source never
reads them again (the interpolation keeps using initial_t and final_t), so
they are dead stores, kept here for fidelity and initialised to none since
they do not exist before the first advance. -/
structure DriftState where
  initial_g : ℚ
  final_g : ℚ
  initial_t : ℚ
  final_t : ℚ
  initial_time : Option ℚ
  final_time : Option ℚ
  j : Nat
  base_dc : ℚ
  g_dc : List ℚ

/-- Body of the advance branch of drift_correction: increment j, reload the
segment bound readings from the arrays, and anchor base_dc at the drift value
already computed for index i - 1.  The assignments to initial_time and
final_time are the dead stores of the source (the bounds initial_t and
final_t used by the interpolation are NOT updated). -/
def driftAdvance (time g_read : List ℚ) (idxs : List Nat) (st : DriftState)
    (i : Nat) : Option DriftState :=
  match g_read[i - 1]?, idxs[st.j + 1]? with
  | some ig, some bj =>
    match g_read[bj]?, time[i - 1]?, time[bj]?, st.g_dc[i - 1]? with
    | some fg, some it, some ft, some bdc =>
      some { st with
        j := st.j + 1
        initial_g := ig
        final_g := fg
        initial_time := some it
        final_time := some ft
        base_dc := bdc }
    | _, _, _, _ => none
  | _, _ => none

/-- One iteration of the loop of drift_correction at record index i.  The
guard 2 ≤ i ∧ i - 1 ∈ idxs embeds the source condition
i - 1 != 0 and i - 1 in idxs: at i = 0 the Python value i - 1 = -1 never
occurs in idxs, and at i = 1 the value i - 1 = 0 is excluded by the first
conjunct.  A zero interpolation denominator yields none. -/
def driftStep (time g_read : List ℚ) (idxs : List Nat) (st : DriftState)
    (i : Nat) : Option DriftState :=
  match (if 2 ≤ i ∧ i - 1 ∈ idxs then driftAdvance time g_read idxs st i
         else some st) with
  | none => none
  | some st1 =>
    match time[i]? with
    | none => none
    | some ti =>
      if st1.final_t - st1.initial_t = 0 then none
      else some { st1 with g_dc := st1.g_dc ++
        [((st1.final_g - st1.initial_g) / (st1.final_t - st1.initial_t)) *
          (ti - st1.initial_t) + st1.base_dc] }

/-- The for loop of drift_correction, iterated over the given record
indices. -/
def driftLoop (time g_read : List ℚ) (idxs : List Nat) :
    DriftState → List Nat → Option DriftState
  | st, [] => some st
  | st, i :: rest =>
    match driftStep time g_read idxs st i with
    | none => none
    | some st' => driftLoop time g_read idxs st' rest

/-- Shallow embedding of drift_correction.  The seed state takes the first
segment bounds from the first reading and the reading at the second base
occurrence idxs[1]; the loop then runs over indices 0 to N - 1. -/
def drift_correction (time g_read : List ℚ) (station : List String) :
    Option (List ℚ) :=
  let idxs := baseIdxs station
  match idxs[1]? with
  | none => none
  | some i1 =>
    match g_read[0]?, g_read[i1]?, time[0]?, time[i1]? with
    | some ig, some fg, some it, some ft =>
      match driftLoop time g_read idxs ⟨ig, fg, it, ft, none, none, 1, 0, []⟩
          (List.range g_read.length) with
      | none => none
      | some st => some st.g_dc
    | _, _, _, _ => none

/-- Conversion factor from degrees to meters: the source literal 111 * 10e2,
that is 111 * 1000 = 111000. -/
def deg_2_m : ℚ := 111 * (10 * 10 ^ 2)

/-- Shallow embedding of lat_dist for one entry of the distance array (the
source maps elementwise): est_m = distance + lat_base * deg_2_m, divided back
by deg_2_m. -/
def lat_dist (lat_base distance : ℚ) : ℚ :=
  (distance + lat_base * deg_2_m) / deg_2_m

/-- Degrees-to-radians conversion, embedding np.deg2rad. -/
noncomputable def deg2rad (x : ℝ) : ℝ := x * Real.pi / 180

/-- Shallow embedding of gn, the GRS 1967 normal gravity, for one entry of
the latitude array. -/
noncomputable def gn (latitude : ℝ) : ℝ :=
  978031.846 * (1 + 0.0053024 * Real.sin (deg2rad latitude) ^ 2
    - 0.0000058 * Real.sin (2 * deg2rad latitude))

/-- Shallow embedding of relative_g: subtract the first reading from every
reading; the access g_obs[0] fails on an empty input. -/
def relative_g (g_obs : List ℚ) : Option (List ℚ) :=
  match g_obs[0]? with
  | none => none
  | some g0 => some (g_obs.map (fun x => x - g0))

/-- Shallow embedding of latitude_correction for one entry.  The optional
arguments are Option values, none standing for an absent (None) argument.
With distance absent and st_latitude absent the source fails (None minus a
number); that surfaces as none. -/
noncomputable def latitude_correction (base_latitude : ℝ)
    (st_latitude : Option ℝ) (distance : Option ℝ) : Option ℝ :=
  match distance with
  | none =>
    match st_latitude with
    | none => none
    | some sl =>
      let r : ℝ := 6367.44
      let dl := sl - base_latitude
      let dy := r * dl
      some (0.811 * Real.sin (2 * deg2rad base_latitude) * dy)
  | some d => some (0.811 * Real.sin (2 * deg2rad base_latitude) * d)

/-- Claim C2: on the single segment scenario time = [0,1,2,3],
station = [B, S1, S2, B], g_read = [100,101,102,106], drift_correction
returns exactly [0, 2, 4, 6]. -/
theorem drift_correction_single_segment :
    drift_correction [0, 1, 2, 3] [100, 101, 102, 106] ["B", "S1", "S2", "B"]
      = some [0, 2, 4, 6] := by
  have hidx : baseIdxs ["B", "S1", "S2", "B"] = [0, 3] := by decide
  have hrange : List.range 4 = [0, 1, 2, 3] := by decide
  norm_num [drift_correction, hidx, hrange, driftLoop, driftStep, driftAdvance]

/-- Claim C7: the lat_dist conversion round-trips exactly over the
rationals, with deg_2_m equal to the literal 111000. -/
theorem lat_dist_round_trip (lat_base d : ℚ) :
    lat_dist lat_base d * 111000 - lat_base * 111000 = d ∧ deg_2_m = 111000 := by
  constructor
  · have hconst : deg_2_m = 111000 := by norm_num [deg_2_m]
    rw [lat_dist, hconst]
    field_simp
  · norm_num [deg_2_m]

/-- Claim C8: under exact real arithmetic the normal gravity model gives
gn 0 = 978031.846 and gn 90 = 978031.846 * 1.0053024. -/
theorem gn_at_zero_and_ninety :
    gn 0 = 978031.846 ∧ gn 90 = 978031.846 * 1.0053024 := by
  constructor
  · norm_num [gn, deg2rad]
  · have h1 : deg2rad 90 = Real.pi / 2 := by rw [deg2rad]; ring
    have h2 : 2 * (Real.pi / 2) = Real.pi := by ring
    rw [gn, h1, h2, Real.sin_pi_div_two, Real.sin_pi]
    norm_num

/-- Claim C9: for a non-empty input, relative_g succeeds, its first output
entry is 0, and every output entry is the input entry minus the first input
entry. -/
theorem relative_g_base_zero (g : List ℚ) (hne : g ≠ []) :
    ∃ g0 r, g[0]? = some g0 ∧ relative_g g = some r ∧ r[0]? = some 0 ∧
      ∀ i : Nat, r[i]? = (g[i]?).map (fun x => x - g0) := by
  match g, hne with
  | a :: t, _ =>
    refine ⟨a, (a :: t).map (fun x => x - a), by simp, by simp [relative_g], by simp, ?_⟩
    intro i
    exact List.getElem?_map (fun x => x - a) (a :: t) i

/-- Witness for claim C9 at the concrete input [5, 7]. -/
theorem relative_g_base_zero_witness :
    ∃ g0 r, ([(5 : ℚ), 7])[0]? = some g0 ∧
      relative_g [(5 : ℚ), 7] = some r ∧ r[0]? = some 0 ∧
      ∀ i : Nat, r[i]? = (([(5 : ℚ), 7])[i]?).map (fun x => x - g0) :=
  relative_g_base_zero [(5 : ℚ), 7] (by simp)

/-- Claim C6: whenever the distance argument is supplied, the latitude
correction equals 0.811 * sin (2 * base latitude in radians) * distance, and
the output does not depend on the st_latitude argument. -/
theorem latitude_correction_distance_mode (φ : ℝ) (sl sl' : Option ℝ) (d : ℝ) :
    latitude_correction φ sl (some d)
        = some (0.811 * Real.sin (2 * deg2rad φ) * d) ∧
      latitude_correction φ sl (some d) = latitude_correction φ sl' (some d) :=
  ⟨rfl, rfl⟩

/-- A successful advance keeps the computed drift list unchanged and anchors
the new base_dc at the drift value stored for index i - 1. -/
theorem driftAdvance_eq (time g_read : List ℚ) (idxs : List Nat)
    (st st1 : DriftState) (i : Nat)
    (h : driftAdvance time g_read idxs st i = some st1) :
    st1.g_dc = st.g_dc ∧ st.g_dc[i - 1]? = some st1.base_dc := by
  unfold driftAdvance at h
  split at h
  · split at h
    · cases h
      exact ⟨rfl, by assumption⟩
    · exact Option.noConfusion h
  · exact Option.noConfusion h

/-- Anatomy of a successful loop iteration: the branch result st1, the time
entry read at index i, the nonzero denominator, and the single value appended
to the drift list. -/
theorem driftStep_some (time g_read : List ℚ) (idxs : List Nat)
    (st st' : DriftState) (i : Nat)
    (h : driftStep time g_read idxs st i = some st') :
    ∃ st1 ti, time[i]? = some ti ∧
      (if 2 ≤ i ∧ i - 1 ∈ idxs then driftAdvance time g_read idxs st i
        else some st) = some st1 ∧
      st1.final_t - st1.initial_t ≠ 0 ∧
      st'.g_dc = st1.g_dc ++
        [((st1.final_g - st1.initial_g) / (st1.final_t - st1.initial_t)) *
          (ti - st1.initial_t) + st1.base_dc] ∧
      st'.base_dc = st1.base_dc ∧ st'.initial_t = st1.initial_t ∧
      st'.final_t = st1.final_t ∧ st'.initial_g = st1.initial_g ∧
      st'.final_g = st1.final_g := by
  unfold driftStep at h
  split at h
  · exact Option.noConfusion h
  · split at h
    · exact Option.noConfusion h
    · split at h
      · exact Option.noConfusion h
      · cases h
        exact ⟨_, _, by assumption, by assumption, by assumption,
          rfl, rfl, rfl, rfl, rfl, rfl⟩

/-- Every successful loop iteration appends exactly one drift value. -/
theorem driftStep_g_dc (time g_read : List ℚ) (idxs : List Nat)
    (st st' : DriftState) (i : Nat)
    (h : driftStep time g_read idxs st i = some st') :
    ∃ x, st'.g_dc = st.g_dc ++ [x] := by
  obtain ⟨st1, ti, hti, hif, hden, hgdc, -⟩ := driftStep_some _ _ _ _ _ _ h
  have h1 : st1.g_dc = st.g_dc := by
    by_cases hc : 2 ≤ i ∧ i - 1 ∈ idxs
    · rw [if_pos hc] at hif
      exact (driftAdvance_eq _ _ _ _ _ _ hif).1
    · rw [if_neg hc] at hif
      cases hif
      rfl
  exact ⟨_, by rw [hgdc, h1]⟩

/-- Drift values already computed are preserved by the rest of the loop. -/
theorem driftLoop_getElem (time g_read : List ℚ) (idxs : List Nat) :
    ∀ (l : List Nat) (st st2 : DriftState),
      driftLoop time g_read idxs st l = some st2 →
      ∀ (k : Nat) (v : ℚ), st.g_dc[k]? = some v → st2.g_dc[k]? = some v := by
  intro l
  induction l with
  | nil =>
    intro st st2 h k v hv
    unfold driftLoop at h
    cases h
    exact hv
  | cons i rest ih =>
    intro st st2 h k v hv
    unfold driftLoop at h
    split at h
    · exact Option.noConfusion h
    · rename_i st' hstep
      apply ih st' st2 h k v
      obtain ⟨x, hx⟩ := driftStep_g_dc _ _ _ _ _ _ hstep
      have hk : k < st.g_dc.length := (List.getElem?_eq_some_iff.mp hv).1
      rw [hx, List.getElem?_append_left hk]
      exact hv

/-- Claim C10: whenever drift_correction returns a sequence on a non-empty
input, its first entry is 0: the advance branch never fires at record 0 or 1,
so the first value is the slope times time[0] - time[0] plus the initial
base_dc of 0. -/
theorem drift_correction_first_entry_zero (time g_read : List ℚ)
    (station : List String) (r : List ℚ) (hne : g_read ≠ [])
    (h : drift_correction time g_read station = some r) :
    r[0]? = some 0 := by
  simp only [drift_correction] at h
  split at h
  · exact Option.noConfusion h
  · split at h
    · rename_i i1 hi1 ig fg it ft hg0 hgi ht0 hti
      split at h
      · exact Option.noConfusion h
      · rename_i stN hloop
        cases h
        obtain ⟨n, hn⟩ : ∃ n, g_read.length = n + 1 := by
          cases g_read with
          | nil => exact absurd rfl hne
          | cons a t => exact ⟨t.length, rfl⟩
        rw [hn, List.range_succ_eq_map] at hloop
        unfold driftLoop at hloop
        split at hloop
        · exact Option.noConfusion hloop
        · rename_i st1 hstep1
          obtain ⟨stA, ti, hti0, hif, hden, hgdc, -⟩ :=
            driftStep_some _ _ _ _ _ _ hstep1
          rw [if_neg (by simp)] at hif
          cases hif
          rw [ht0] at hti0
          cases hti0
          have h0 : st1.g_dc[0]? = some 0 := by
            rw [hgdc]
            simp
          exact driftLoop_getElem _ _ _ _ _ _ hloop 0 0 h0
    · exact Option.noConfusion h

/-- Witness for claim C10 at the single segment scenario input. -/
theorem drift_correction_first_entry_zero_witness :
    ([(0 : ℚ), 2, 4, 6])[0]? = some 0 :=
  drift_correction_first_entry_zero [0, 1, 2, 3] [100, 101, 102, 106]
    ["B", "S1", "S2", "B"] [0, 2, 4, 6] (by simp)
    (by
      have hidx : baseIdxs ["B", "S1", "S2", "B"] = [0, 3] := by decide
      have hrange : List.range 4 = [0, 1, 2, 3] := by decide
      norm_num [drift_correction, hidx, hrange, driftLoop, driftStep,
        driftAdvance])

/-- Claim C3: when the loop advances to a new segment at record i (so i - 1
is a base revisit other than record 0), the cumulative offset base_dc of the
new segment is the drift value already computed for index i - 1, and the
drift value appended at record i carries that offset additively. -/
theorem drift_base_dc_anchored (time g_read : List ℚ) (idxs : List Nat)
    (st st' : DriftState) (i : Nat) (ti : ℚ)
    (hadv : 2 ≤ i ∧ i - 1 ∈ idxs)
    (hti : time[i]? = some ti)
    (hstep : driftStep time g_read idxs st i = some st') :
    st.g_dc[i - 1]? = some st'.base_dc ∧
    st'.g_dc = st.g_dc ++
      [((st'.final_g - st'.initial_g) / (st'.final_t - st'.initial_t)) *
        (ti - st'.initial_t) + st'.base_dc] := by
  obtain ⟨st1, ti2, hti2, hif, hden, hgdc, hb, hit, hft, hig, hfg⟩ :=
    driftStep_some _ _ _ _ _ _ hstep
  rw [hti] at hti2
  cases hti2
  rw [if_pos hadv] at hif
  obtain ⟨hg1, hbd⟩ := driftAdvance_eq _ _ _ _ _ _ hif
  refine ⟨by rw [hbd, hb], ?_⟩
  rw [hgdc, hg1, hb, hit, hft, hig, hfg]

/-- Witness for claim C3: the two base segment scenario, at the advance that
record 3 triggers (record 2 is a base revisit); the previous drift value 4
becomes the new base_dc and the appended value carries it additively. -/
theorem drift_base_dc_anchored_witness :
    ([(0 : ℚ), 2, 4])[2]? = some (4 : ℚ) ∧
    ([(0 : ℚ), 2, 4, 10]) = [(0 : ℚ), 2, 4] ++
      [(((108 : ℚ) - 104) / ((2 : ℚ) - 0)) * ((3 : ℚ) - 0) + 4] :=
  drift_base_dc_anchored [0, 1, 2, 3, 4] [100, 102, 104, 106, 108] [0, 2, 4]
    ⟨100, 104, 0, 2, none, none, 1, 0, [0, 2, 4]⟩
    ⟨104, 108, 0, 2, some 2, some 4, 2, 4, [0, 2, 4, 10]⟩ 3 3
    (by decide) (by decide)
    (by norm_num [driftStep, driftAdvance])

/-- Claim C4: when the base label never recurs after index 0, or fewer than
two base indices exist at all, drift_correction fails (the lookup of the
second base index is out of range) and returns no sequence. -/
theorem drift_correction_no_second_base (time g_read : List ℚ)
    (station : List String)
    (h : (∀ k : Nat, 0 < k → station[k]? ≠ station[0]?) ∨
      (baseIdxs station).length < 2) :
    drift_correction time g_read station = none := by
  have hlen : (baseIdxs station).length < 2 := by
    rcases h with h | h
    · by_contra hc
      push_neg at hc
      obtain ⟨x, y, rest, hxy⟩ : ∃ x y rest, baseIdxs station = x :: y :: rest := by
        match hb : baseIdxs station with
        | [] => rw [hb] at hc; simp at hc
        | [x] => rw [hb] at hc; simp at hc
        | x :: y :: rest => exact ⟨x, y, rest, rfl⟩
      have hall : ∀ k ∈ baseIdxs station, k = 0 := by
        intro k hk
        unfold baseIdxs at hk
        rw [List.mem_filter] at hk
        have hkp : station[k]? = station[0]? := by
          have := hk.2
          simpa using this
        by_contra hk0
        exact h k (Nat.pos_of_ne_zero hk0) hkp
      have hx : x = 0 := hall x (by rw [hxy]; simp)
      have hy : y = 0 := hall y (by rw [hxy]; simp)
      have hnd : (baseIdxs station).Nodup :=
        List.Nodup.filter _ (List.nodup_range _)
      rw [hxy, List.nodup_cons] at hnd
      exact hnd.1 (by rw [hx, hy]; simp)
    · exact h
  have h1 : (baseIdxs station)[1]? = none := List.getElem?_eq_none (by omega)
  simp only [drift_correction]
  rw [h1]

/-- Witness for claim C4: a survey in which the base station B is never
revisited. -/
theorem drift_correction_no_second_base_witness :
    drift_correction [0, 1] [1, 2] ["B", "S1"] = none :=
  drift_correction_no_second_base [0, 1] [1, 2] ["B", "S1"]
    (Or.inr (by decide))

/-- Claim C5: when the two base timestamps seeding the segment bounds are
equal (time[0] equals the time at the second base occurrence), the
interpolation denominator is zero and drift_correction fails rather than
returning an ordinary drift sequence. -/
theorem drift_correction_equal_base_times (time g_read : List ℚ)
    (station : List String) (i1 : Nat) (t0 : ℚ)
    (hi1 : (baseIdxs station)[1]? = some i1)
    (ht0 : time[0]? = some t0)
    (ht1 : time[i1]? = some t0) :
    drift_correction time g_read station = none := by
  have hiota : drift_correction time g_read station =
      match g_read[0]?, g_read[i1]?, time[0]?, time[i1]? with
      | some ig, some fg, some it, some ft =>
        match driftLoop time g_read (baseIdxs station)
            ⟨ig, fg, it, ft, none, none, 1, 0, []⟩
            (List.range g_read.length) with
        | none => none
        | some st => some st.g_dc
      | _, _, _, _ => none := by
    simp only [drift_correction]
    rw [hi1]
  rw [hiota]
  cases hg0 : g_read[0]? with
  | none => rw [ht0, ht1]
  | some ig =>
    cases hgi : g_read[i1]? with
    | none => rw [ht0, ht1]
    | some fg =>
      rw [ht0, ht1]
      have hstep : driftStep time g_read (baseIdxs station)
          ⟨ig, fg, t0, t0, none, none, 1, 0, []⟩ 0 = none := by
        norm_num [driftStep, ht0]
      have hloop : driftLoop time g_read (baseIdxs station)
          ⟨ig, fg, t0, t0, none, none, 1, 0, []⟩
          (List.range g_read.length) = none := by
        obtain ⟨n, hn⟩ : ∃ n, g_read.length = n + 1 := by
          cases g_read with
          | nil => exact absurd hg0 (by simp)
          | cons a t => exact ⟨t.length, rfl⟩
        rw [hn, List.range_succ_eq_map]
        unfold driftLoop
        rw [hstep]
      show (match driftLoop time g_read (baseIdxs station)
          ⟨ig, fg, t0, t0, none, none, 1, 0, []⟩
          (List.range g_read.length) with
        | none => none
        | some st => some st.g_dc) = none
      rw [hloop]

/-- Witness for claim C5: two base readings taken at the same clock time. -/
theorem drift_correction_equal_base_times_witness :
    drift_correction [5, 5] [1, 2] ["B", "B"] = none :=
  drift_correction_equal_base_times [5, 5] [1, 2] ["B", "B"] 1 5
    (by decide) (by decide) (by decide)

/-- Claim C1 counterevidence: on the two base segment survey
time = [0,1,2,3,4], station = [B, S1, B, S2, B],
g_read = [100,102,104,106,108], the code returns [0, 2, 4, 10, 12]: the
advance branch stores the new segment time bounds in the dead variables
initial_time and final_time, so record 3 is interpolated with the stale first
segment time bounds 0 and 2, giving 10, while interpolation over the current
segment bounds (start at record 2, end at record 4, anchored at base_dc = 4)
gives ((108 - 104) / (4 - 2)) * (3 - 2) + 4 = 6. -/
theorem drift_correction_stale_time_bounds :
    drift_correction [0, 1, 2, 3, 4] [100, 102, 104, 106, 108]
        ["B", "S1", "B", "S2", "B"] = some [0, 2, 4, 10, 12] ∧
      (((108 : ℚ) - 104) / ((4 : ℚ) - 2)) * ((3 : ℚ) - 2) + 4 = 6 ∧
      (10 : ℚ) ≠ 6 := by
  refine ⟨?_, by norm_num, by norm_num⟩
  have hidx : baseIdxs ["B", "S1", "B", "S2", "B"] = [0, 2, 4] := by decide
  have hrange : List.range 5 = [0, 1, 2, 3, 4] := by decide
  norm_num [drift_correction, hidx, hrange, driftLoop, driftStep, driftAdvance]
end GravityCorrections
